import Mathlib

/-!
Verification of the swrev stale-while-revalidate core.

The definitions below are a shallow embedding of the TypeScript sources:
  - `CacheItem`, `DefaultCache` (here `Cache`) and the event manager come
    from the cache/events modules;
  - the `Engine` operations (`revalidate`, `mutate`, `get`, `getWait`,
    `subscribe`) follow the current `SWR` class in `src/SWR.ts`.
Promises are modelled by an explicit settled-versus-future datum plus an
explicit resolution step (`Cache.runResolve`), instants are natural-number
millisecond timestamps, and the event buses record the payloads delivered
to each listener id in a `deliveries` log.
-/

namespace Swrev

/-- Association-list lookup over string keys, mirroring a JS `Map.get`. -/
def lookupAssoc {A : Type} : List (String × A) → String → Option A
  | [], _ => none
  | p :: xs, k => if p.1 = k then some p.2 else lookupAssoc xs k

/-- Association-list insertion-or-update, mirroring a JS `Map.set`. -/
def setAssoc {A : Type} : List (String × A) → String → A → List (String × A)
  | [], k, a => [(k, a)]
  | p :: xs, k, a => if p.1 = k then (k, a) :: xs else p :: setAssoc xs k a

/-- Association-list deletion, mirroring a JS `Map.delete`. -/
def removeAssoc {A : Type} : List (String × A) → String → List (String × A)
  | [], _ => []
  | p :: xs, k => if p.1 = k then removeAssoc xs k else p :: removeAssoc xs k

theorem lookupAssoc_setAssoc_self {A : Type} (xs : List (String × A)) (k : String) (a : A) :
    lookupAssoc (setAssoc xs k a) k = some a := by
  induction xs with
  | nil => simp [setAssoc, lookupAssoc]
  | cons p xs ih =>
    by_cases h : p.1 = k
    · simp [setAssoc, h, lookupAssoc]
    · simp [setAssoc, h, lookupAssoc, ih]

theorem lookupAssoc_removeAssoc_self {A : Type} (xs : List (String × A)) (k : String) :
    lookupAssoc (removeAssoc xs k) k = none := by
  induction xs with
  | nil => simp [removeAssoc, lookupAssoc]
  | cons p xs ih =>
    by_cases h : p.1 = k
    · simp [removeAssoc, h, ih]
    · simp [removeAssoc, h, lookupAssoc, ih]

/-- The datum held by a cache item: either an already settled JS value
(`settled none` standing for a stored `undefined`), or a pending promise
identified by a future id. -/
inductive CacheData (V : Type) where
  | settled : Option V → CacheData V
  | future : Nat → CacheData V
deriving DecidableEq, Repr

/-- `CacheItem` from `cache.ts`: a datum plus an optional expiration
instant (`expiresAt = null` is modelled as `none`). -/
structure CacheItem (V : Type) where
  data : CacheData V
  expiresAt : Option Nat
deriving DecidableEq, Repr

/-- `CacheItem.isResolving`: the datum is still a pending promise. -/
def CacheItem.isResolving {V : Type} (i : CacheItem V) : Bool :=
  match i.data with
  | CacheData.future _ => true
  | CacheData.settled _ => false

/-- `CacheItem.hasExpired`: `this.expiresAt === null || new Date(this.expiresAt) < new Date()`.
Date comparison is strict less-than on millisecond timestamps. -/
def CacheItem.hasExpired {V : Type} (i : CacheItem V) (now : Nat) : Bool :=
  match i.expiresAt with
  | none => true
  | some t => decide (t < now)

/-- `CacheItem.expiresIn(ms)`: sets `expiresAt` to the current instant plus
`ms` milliseconds. -/
def CacheItem.expiresIn {V : Type} (i : CacheItem V) (now ms : Nat) : CacheItem V :=
  { i with expiresAt := some (now + ms) }

/-- `DefaultSWREventManager` from `events.ts`: per-key ordered lists of
listener ids. -/
structure EventManager where
  listeners : List (String × List Nat)
deriving DecidableEq, Repr

/-- The listeners a call to `emit(key, payload)` would invoke, in order;
empty when the key has no listener list. -/
def EventManager.emitList (m : EventManager) (key : String) : List Nat :=
  match lookupAssoc m.listeners key with
  | some l => l
  | none => []

/-- `subscribe`: appends the listener unless it is already present. -/
def EventManager.subscribe (m : EventManager) (key : String) (lid : Nat) : EventManager :=
  match lookupAssoc m.listeners key with
  | none => ⟨setAssoc m.listeners key [lid]⟩
  | some l => if lid ∈ l then m else ⟨setAssoc m.listeners key (l ++ [lid])⟩

/-- `unsubscribe`: removes the listener if present, pruning the key entry
once its list becomes empty. -/
def EventManager.unsubscribe (m : EventManager) (key : String) (lid : Nat) : EventManager :=
  match lookupAssoc m.listeners key with
  | none => m
  | some l =>
    if lid ∈ l then
      if l.erase lid = [] then ⟨removeAssoc m.listeners key⟩
      else ⟨setAssoc m.listeners key (l.erase lid)⟩
    else m

/-- A stored cache entry: the item plus a unique id standing for the JS
object identity of the `CacheItem` (each `set` allocates a fresh id). -/
structure StoredItem (V : Type) where
  id : Nat
  item : CacheItem V
deriving DecidableEq, Repr

/-- `DefaultCache` from `cache.ts`. `tasks` records the asynchronous
resolve continuations scheduled by `set` (key, captured item id, captured
datum); `deliveries` logs every `(listener, payload)` pair handed to a
cache subscriber by `broadcast`. -/
structure Cache (V : Type) where
  elements : List (String × StoredItem V)
  nextId : Nat
  event : EventManager
  tasks : List (String × Nat × CacheData V)
  deliveries : List (Nat × Option V)
deriving DecidableEq, Repr

def Cache.lookupStored {V : Type} (c : Cache V) (key : String) : Option (StoredItem V) :=
  lookupAssoc c.elements key

/-- `DefaultCache.get`: the stored item for the key (callers guard with `has`). -/
def Cache.lookupItem {V : Type} (c : Cache V) (key : String) : Option (CacheItem V) :=
  (c.lookupStored key).map (fun s => s.item)

/-- `DefaultCache.has`. -/
def Cache.hasKey {V : Type} (c : Cache V) (key : String) : Bool :=
  (c.lookupStored key).isSome

/-- `DefaultCache.broadcast`: emit to every listener of the key, recording
the deliveries. A payload of `none` models broadcasting `undefined`. -/
def Cache.broadcast {V : Type} (c : Cache V) (key : String) (payload : Option V) : Cache V :=
  { c with deliveries := c.deliveries ++ (c.event.emitList key).map (fun l => (l, payload)) }

/-- `DefaultCache.remove`: if the broadcast option is set, emit
`(key, undefined)` first, then delete the entry. -/
def Cache.remove {V : Type} (c : Cache V) (key : String) (bcast : Bool) : Cache V :=
  let c1 := if bcast then c.broadcast key none else c
  { c1 with elements := removeAssoc c1.elements key }

/-- `DefaultCache.clear`: broadcast `(key, undefined)` for every key if
requested, then drop all entries. -/
def Cache.clear {V : Type} (c : Cache V) (bcast : Bool) : Cache V :=
  let c1 := if bcast then c.elements.foldl (fun acc p => acc.broadcast p.1 none) c else c
  { c1 with elements := [] }

/-- `DefaultCache.set`: store the item under a fresh object id and schedule
the resolve continuation capturing the item and its datum. -/
def Cache.set {V : Type} (c : Cache V) (key : String) (item : CacheItem V) : Cache V :=
  { c with
    elements := setAssoc c.elements key ⟨c.nextId, item⟩
    nextId := c.nextId + 1
    tasks := c.tasks ++ [(key, c.nextId, item.data)] }

/-- `DefaultCache.subscribe`. -/
def Cache.subscribeKey {V : Type} (c : Cache V) (key : String) (lid : Nat) : Cache V :=
  { c with event := c.event.subscribe key lid }

/-- `DefaultCache.unsubscribe`. -/
def Cache.unsubscribeKey {V : Type} (c : Cache V) (key : String) (lid : Nat) : Cache V :=
  { c with event := c.event.unsubscribe key lid }

/-- The in-place mutation `value.data = detail` performed by the resolve
continuation: it updates the captured item object (identified by `iid`)
wherever the store still references it. -/
def resolveUpdate {V : Type} (iid : Nat) (v : V) :
    List (String × StoredItem V) → List (String × StoredItem V)
  | [] => []
  | p :: xs =>
    if p.2.id = iid then
      (p.1, ⟨p.2.id, ⟨CacheData.settled (some v), p.2.item.expiresAt⟩⟩) :: resolveUpdate iid v xs
    else p :: resolveUpdate iid v xs

theorem lookupAssoc_resolveUpdate {V : Type} (xs : List (String × StoredItem V))
    (k : String) (iid : Nat) (v : V) :
    lookupAssoc (resolveUpdate iid v xs) k =
      (lookupAssoc xs k).map
        (fun s => if s.id = iid then ⟨s.id, ⟨CacheData.settled (some v), s.item.expiresAt⟩⟩ else s) := by
  induction xs with
  | nil => simp [resolveUpdate, lookupAssoc]
  | cons p xs ih =>
    by_cases hid : p.2.id = iid
    · by_cases hk : p.1 = k
      · simp [resolveUpdate, lookupAssoc, hid, hk]
      · simp [resolveUpdate, lookupAssoc, hid, hk, ih]
    · by_cases hk : p.1 = k
      · simp [resolveUpdate, lookupAssoc, hid, hk]
      · simp [resolveUpdate, lookupAssoc, hid, hk, ih]

/-- The body of `DefaultCache.resolve`'s continuation, run once the
captured datum has settled to `detail`: on `undefined`/`null` remove the
key (no broadcast); otherwise write the settled value back into the
captured item object and broadcast `(key, value)`. -/
def Cache.runResolve {V : Type} (c : Cache V) (key : String) (iid : Nat)
    (detail : Option V) : Cache V :=
  match detail with
  | none => c.remove key false
  | some v => Cache.broadcast { c with elements := resolveUpdate iid v c.elements } key (some v)

/-- The `SWR` engine state: its cache, the error event manager, a log of
the error payloads delivered to each error listener, and a counter for
fresh future ids. -/
structure Engine (V : Type) where
  cache : Cache V
  errors : EventManager
  errorDeliveries : List (Nat × String)
  nextFut : Nat
deriving DecidableEq, Repr

/-- The options a `revalidate` call actually reads: `force` and
`dedupingInterval` (the fetcher is passed separately as its eventual
outcome). -/
structure RevCfg where
  force : Bool
  dedupingInterval : Nat
deriving DecidableEq, Repr

/-- `SWR.get`: the cached value, only when the key is truthy, present, and
the item is not still resolving; `undefined` otherwise. -/
def Engine.swrGet {V : Type} (e : Engine V) (key : String) : Option V :=
  if key = "" then none
  else
    match e.cache.lookupStored key with
    | some s =>
      if s.item.isResolving then none
      else
        match s.item.data with
        | CacheData.settled x => x
        | CacheData.future _ => none
    | none => none

/-- `SWR.get` applied to an optional (possibly undefined) key. -/
def Engine.swrGetOpt {V : Type} (e : Engine V) (key : Option String) : Option V :=
  match key with
  | some k => e.swrGet k
  | none => none

/-- The refetch condition of `SWR.revalidate`:
`force || !cache.has(key) || (cache.has(key) && cache.get(key).hasExpired())`. -/
def Engine.revalidateFetches {V : Type} (e : Engine V) (key : String) (now : Nat)
    (force : Bool) : Bool :=
  force || !(e.cache.hasKey key) ||
    (e.cache.hasKey key &&
      (match e.cache.lookupItem key with
       | some i => i.hasExpired now
       | none => true))

/-- `errors.emit(key, reason)` inside `requestData`'s rejection handler:
record the reason delivered to every error listener of the key. -/
def Engine.emitError {V : Type} (e : Engine V) (key reason : String) : Engine V :=
  { e with errorDeliveries :=
      e.errorDeliveries ++ (e.errors.emitList key).map (fun l => (l, reason)) }

/-- The synchronous part of `SWR.revalidate` (current variant in
`SWR.ts`): throw on a falsy key; when the refetch condition holds, invoke
the fetcher, store a `CacheItem` wrapping the pending `safeData` future
with `expiresIn(dedupingInterval)` applied, and report that a fetch was
issued; otherwise leave the cache untouched (the call returns
`getWait(key)`). -/
def Engine.revalidateSync {V : Type} (e : Engine V) (key : String) (now : Nat)
    (cfg : RevCfg) : Except String (Engine V × Bool) :=
  if key = "" then Except.error "[Revalidate] Key issue"
  else if e.revalidateFetches key now cfg.force then
    let item := CacheItem.expiresIn ⟨CacheData.future e.nextFut, none⟩ now cfg.dedupingInterval
    Except.ok ({ e with cache := e.cache.set key item, nextFut := e.nextFut + 1 }, true)
  else Except.ok (e, false)

/-- `revalidateSync` with the throwing branch projected away (the engine is
unchanged and no fetch is issued when the key is falsy). -/
def Engine.revalidateRun {V : Type} (e : Engine V) (key : String) (now : Nat)
    (cfg : RevCfg) : Engine V × Bool :=
  match e.revalidateSync key now cfg with
  | Except.ok p => p
  | Except.error _ => (e, false)

/-- A whole `revalidate` call together with the settlement of the fetch it
issued (if any): on rejection, `requestData` emits the reason on the error
bus and `safeData` settles to `undefined`, so the cache resolve
continuation removes the entry; on success the continuation writes the
value back and broadcasts it. -/
def Engine.revalidateSettle {V : Type} (e : Engine V) (key : String) (now : Nat)
    (cfg : RevCfg) (fetch : Except String V) : Except String (Engine V) :=
  match e.revalidateSync key now cfg with
  | Except.error s => Except.error s
  | Except.ok (e1, issued) =>
    if issued then
      match fetch with
      | Except.error reason =>
        let e2 := e1.emitError key reason
        Except.ok { e2 with cache := e2.cache.runResolve key e.cache.nextId none }
      | Except.ok v =>
        Except.ok { e1 with cache := e1.cache.runResolve key e.cache.nextId (some v) }
    else Except.ok e1

/-- `revalidateSettle` with the throwing branch projected away. -/
def Engine.revalidateSettleRun {V : Type} (e : Engine V) (key : String) (now : Nat)
    (cfg : RevCfg) (fetch : Except String V) : Engine V :=
  match e.revalidateSettle key now cfg fetch with
  | Except.ok e1 => e1
  | Except.error _ => e

/-- The `value` argument of `SWR.mutate`: a literal replacement value or a
function of the previous state. -/
inductive MutateValue (V : Type) where
  | lit : V → MutateValue V
  | fn : (Option V → V) → MutateValue V

/-- The mutation data computed by `SWR.mutate`: the literal value, or the
function applied to the current cache entry (read only when present and
not still resolving, `undefined` otherwise). -/
def Engine.mutateData {V : Type} (e : Engine V) (key : String) (value : MutateValue V) : V :=
  match value with
  | MutateValue.lit v => v
  | MutateValue.fn f =>
    let state : Option V :=
      match e.cache.lookupStored key with
      | some s =>
        if s.item.isResolving then none
        else
          match s.item.data with
          | CacheData.settled x => x
          | CacheData.future _ => none
      | none => none
    f state

/-- The store-write of `SWR.mutate`: `cache.set(key, new CacheItem({data}))`
with the expiration left unset. -/
def Engine.mutateWrite {V : Type} (e : Engine V) (key : String) (value : MutateValue V) :
    Engine V :=
  { e with cache := e.cache.set key ⟨CacheData.settled (some (e.mutateData key value)), none⟩ }

/-- The synchronous part of `SWR.mutate`: throw on a falsy key, write the
mutation data, then (when the revalidate option is set) run the
synchronous part of the follow-up `revalidate` call. -/
def Engine.mutateSync {V : Type} (e : Engine V) (key : String) (value : MutateValue V)
    (revalidateAfter : Bool) (now : Nat) (cfg : RevCfg) : Except String (Engine V) :=
  if key = "" then Except.error "[Mutate] Key issue"
  else
    let e1 := e.mutateWrite key value
    if revalidateAfter then
      match e1.revalidateSync key now cfg with
      | Except.error s => Except.error s
      | Except.ok p => Except.ok p.1
    else Except.ok e1

/-- `mutateSync` with the throwing branch projected away. -/
def Engine.mutateRun {V : Type} (e : Engine V) (key : String) (value : MutateValue V)
    (revalidateAfter : Bool) (now : Nat) (cfg : RevCfg) : Engine V :=
  match e.mutateSync key value revalidateAfter now cfg with
  | Except.ok e1 => e1
  | Except.error _ => e

/-- The observable state of a pending `getWait` promise: whether the data
and error listeners it registered are still subscribed, and the settled
outcome, if any. -/
structure GetWaitState (V : Type) where
  dataActive : Bool
  errorActive : Bool
  result : Option (Except String V)

/-- `SWR.getWait` (current variant): register a data listener and an error
listener (each only when the key is truthy), then resolve immediately when
`get(key)` is not `undefined` — leaving both listeners subscribed. -/
def Engine.getWaitInit {V : Type} (e : Engine V) (key : String) : GetWaitState V :=
  { dataActive := key != ""
    errorActive := key != ""
    result :=
      match e.swrGet key with
      | some v => some (Except.ok v)
      | none => none }

/-- The data listener registered by `getWait`: it unsubscribes itself, then
resolves the promise when the payload is not `undefined` (a later resolve
on an already settled promise is a no-op). -/
def getWaitOnData {V : Type} (s : GetWaitState V) (payload : Option V) : GetWaitState V :=
  if s.dataActive then
    let s1 : GetWaitState V := { s with dataActive := false }
    match payload with
    | some v =>
      match s1.result with
      | none => { s1 with result := some (Except.ok v) }
      | some _ => s1
    | none => s1
  else s

/-- The error listener registered by `getWait`: it unsubscribes itself,
then rejects the promise when the payload is not `undefined`. -/
def getWaitOnError {V : Type} (s : GetWaitState V) (payload : Option String) : GetWaitState V :=
  if s.errorActive then
    let s1 : GetWaitState V := { s with errorActive := false }
    match payload with
    | some err =>
      match s1.result with
      | none => { s1 with result := some (Except.error err) }
      | some _ => s1
    | none => s1
  else s

/-- The older `getWait` variant's immediate-resolution step: it registers
both listeners and then checks `if (current)` — JS truthiness, not
presence — before resolving with the current value. -/
def Engine.getWaitV2Init {V : Type} (e : Engine V) (truthy : V → Bool) (key : String) :
    GetWaitState V :=
  { dataActive := key != ""
    errorActive := key != ""
    result :=
      match e.swrGet key with
      | some v => if truthy v then some (Except.ok v) else none
      | none => none }

/-- JS truthiness of whether a key producer's result enables an operation:
`undefined` and the empty string are falsy. -/
def keyTruthy (key : Option String) : Bool :=
  match key with
  | some k => k != ""
  | none => false

/-- The observable synchronous behavior of one `SWR.subscribe` call:
how often the key producer was evaluated (`resolveKey` call sites), the
initial `cachedData`, the values passed synchronously to `onData`, whether
`dataPromise` is the resolved cached value (JS truthiness) rather than the
revalidation promise, and which listeners were registered. -/
structure SubResult (V : Type) where
  keyEvals : Nat
  cachedData : Option V
  syncData : List V
  dataPromiseFromCache : Bool
  dataListenerRegistered : Bool
  errorListenerRegistered : Bool
deriving DecidableEq, Repr

/-- The synchronous body of `SWR.subscribe` (current variant). `keyFn` is
the (pure) outcome of evaluating the key producer, constant across
evaluations; every `resolveKey(key)` call site evaluates it once:
the initial cache read (when `loadInitialCache`), the start-of-call
revalidation (when `revalidateOnStart`), and each supplied listener
registration. -/
def subscribeModel {V : Type} (e : Engine V) (truthy : V → Bool) (fallbackData : Option V)
    (keyFn : Option String) (hasOnData hasOnError : Bool)
    (loadInitialCache revalidateOnStart : Bool) : SubResult V :=
  let n1 : Nat := if loadInitialCache then 1 else 0
  let cachedData : Option V := if loadInitialCache then e.swrGetOpt keyFn else fallbackData
  let n2 : Nat := n1 + (if revalidateOnStart then 1 else 0)
  let fromCache : Bool :=
    match cachedData with
    | some v => truthy v
    | none => false
  let syncData : List V :=
    match cachedData with
    | some v => if truthy v && hasOnData then [v] else []
    | none => []
  let n3 : Nat := n2 + (if hasOnData then 1 else 0)
  let n4 : Nat := n3 + (if hasOnError then 1 else 0)
  ⟨n4, cachedData, syncData, fromCache,
    hasOnData && keyTruthy keyFn, hasOnError && keyTruthy keyFn⟩

/-- A JS primitive value, for the claims that hinge on JS truthiness. -/
inductive JSVal where
  | num : Int → JSVal
  | str : String → JSVal
  | bool : Bool → JSVal
deriving DecidableEq, Repr

/-- JS truthiness on `JSVal`: `0`, the empty string and `false` are falsy. -/
def jsTruthy : JSVal → Bool
  | JSVal.num n => n != 0
  | JSVal.str s => s != ""
  | JSVal.bool b => b

/-- The empty in-memory cache. -/
def emptyCache (V : Type) : Cache V :=
  ⟨[], 0, ⟨[]⟩, [], []⟩

/-- A fresh engine over the empty cache and an empty error bus. -/
def emptyEngine (V : Type) : Engine V :=
  ⟨emptyCache V, ⟨[]⟩, [], 0⟩

/-- C2: `set(key, item)` stores the item and schedules a resolution step;
when the item's datum settles to `null`/`undefined` the key is removed
with no broadcast (so `has(key)` is false and no data listener fires), and
when it settles to a value the stored item's datum is replaced by the
settled value and `(key, value)` is delivered to every subscriber of the
key. -/
theorem cache_set_resolution {V : Type} (c : Cache V) (key : String) (item : CacheItem V)
    (v : V) :
    ((c.set key item).lookupStored key = some ⟨c.nextId, item⟩) ∧
    ((c.set key item).tasks = c.tasks ++ [(key, c.nextId, item.data)]) ∧
    (((c.set key item).runResolve key c.nextId none).hasKey key = false) ∧
    (((c.set key item).runResolve key c.nextId none).deliveries = c.deliveries) ∧
    (((c.set key item).runResolve key c.nextId (some v)).lookupStored key =
      some ⟨c.nextId, ⟨CacheData.settled (some v), item.expiresAt⟩⟩) ∧
    (((c.set key item).runResolve key c.nextId (some v)).deliveries =
      c.deliveries ++ (c.event.emitList key).map (fun l => (l, some v))) := by
  refine ⟨?_, ?_, ?_, ?_, ?_, ?_⟩
  · simp [Cache.set, Cache.lookupStored, lookupAssoc_setAssoc_self]
  · rfl
  · simp [Cache.runResolve, Cache.remove, Cache.hasKey, Cache.lookupStored, Cache.set,
      lookupAssoc_removeAssoc_self]
  · simp [Cache.runResolve, Cache.remove, Cache.set]
  · simp [Cache.runResolve, Cache.broadcast, Cache.lookupStored, Cache.set,
      lookupAssoc_resolveUpdate, lookupAssoc_setAssoc_self]
  · simp [Cache.runResolve, Cache.broadcast, Cache.set]

/-- The cache used by the concrete superseded-broadcast run: empty store,
one subscriber (listener id 0) on key `a`. -/
def cacheWithListenerA : Cache Int :=
  ⟨[], 0, ⟨[("a", [0])]⟩, [], []⟩

/-- C6 counterexample: a `set("a", item)` whose datum is a pending future,
followed synchronously by `remove("a")`, still delivers the superseded
item's settled value `7` to the subscriber once the future settles — the
resolve continuation is not serialized against the removal, refuting the
claim that the superseded value is never broadcast after the removal. -/
theorem superseded_broadcast_cex :
    ((((cacheWithListenerA.set "a" ⟨CacheData.future 0, none⟩).remove "a" false).runResolve
        "a" 0 (some 7)).deliveries = [(0, some 7)]) ∧
    ((((cacheWithListenerA.set "a" ⟨CacheData.future 0, none⟩).remove "a" false).runResolve
        "a" 0 (some 7)).hasKey "a" = false) := by
  constructor <;> rfl

/-- C6 amended: after `set(key, item)` followed synchronously by
`remove(key)`, the resolve continuation attached by the `set` still
broadcasts the settled (non-null) value to every subscriber of the key;
the store itself stays without the key (the settled value is written back
only into the removed item object). -/
theorem superseded_resolve_broadcasts {V : Type} (c : Cache V) (key : String)
    (item : CacheItem V) (v : V) :
    ((((c.set key item).remove key false).runResolve key c.nextId (some v)).hasKey key
        = false) ∧
    ((((c.set key item).remove key false).runResolve key c.nextId (some v)).deliveries =
      c.deliveries ++ (c.event.emitList key).map (fun l => (l, some v))) := by
  constructor
  · simp [Cache.runResolve, Cache.broadcast, Cache.remove, Cache.hasKey, Cache.lookupStored,
      Cache.set, lookupAssoc_resolveUpdate, lookupAssoc_removeAssoc_self]
  · simp [Cache.runResolve, Cache.broadcast, Cache.remove, Cache.set]

/-- The reading of C7 under which an item whose `expiresAt` equals the
current instant counts as expired. -/
def hasExpiredLeClaim : Prop :=
  ∀ (i : CacheItem Int) (now : Nat),
    i.hasExpired now = true ↔ (i.expiresAt = none ∨ ∃ t, i.expiresAt = some t ∧ t ≤ now)

/-- C7 counterexample: an item with `expiresAt = 5` at instant `5` is not
expired (`hasExpired` uses a strict comparison), refuting the claim that
`expiresAt ≤ now` counts as expired. -/
theorem hasExpired_boundary_cex : ¬ hasExpiredLeClaim := by
  intro h
  have h5 := (h ⟨CacheData.settled none, some 5⟩ 5).mpr (Or.inr ⟨5, rfl, le_refl 5⟩)
  exact absurd h5 (by decide)

/-- C7 amended: `hasExpired()` returns true iff `expiresAt` is unset or
strictly earlier than the current instant; an item whose `expiresAt`
equals the current instant is not yet expired. -/
theorem hasExpired_strict_before {V : Type} (i : CacheItem V) (now : Nat) :
    i.hasExpired now = true ↔
      (i.expiresAt = none ∨ ∃ t, i.expiresAt = some t ∧ t < now) := by
  cases i with
  | mk data expiresAt =>
    cases expiresAt with
    | none => simp [CacheItem.hasExpired]
    | some t => simp [CacheItem.hasExpired]

/-- C1: `revalidate(key)` issues a new fetcher call iff `force` is set, the
key is absent from the cache, or the stored item has expired; and two
`revalidate` calls within `dedupingInterval` (force unset, key initially
absent) issue exactly one fetch, because the first call stores an item
already marked fresh for `dedupingInterval` milliseconds. -/
theorem swr_revalidate_dedup {V : Type} (e : Engine V) (key : String) (now nowLater : Nat)
    (cfg cfgLater : RevCfg) (hk : key ≠ "") :
    ((e.revalidateRun key now cfg).2 = true ↔
      (cfg.force = true ∨ e.cache.hasKey key = false ∨
        ∃ i, e.cache.lookupItem key = some i ∧ i.hasExpired now = true)) ∧
    (e.cache.hasKey key = false → cfgLater.force = false →
      nowLater ≤ now + cfg.dedupingInterval →
      ((e.revalidateRun key now cfg).2 = true ∧
       (e.revalidateRun key now cfg).1.cache.lookupItem key =
         some ⟨CacheData.future e.nextFut, some (now + cfg.dedupingInterval)⟩ ∧
       ((e.revalidateRun key now cfg).1.revalidateRun key nowLater cfgLater).2 = false)) := by
  have hfetches : (e.revalidateRun key now cfg).2 = e.revalidateFetches key now cfg.force := by
    by_cases hf : e.revalidateFetches key now cfg.force <;>
      simp [Engine.revalidateRun, Engine.revalidateSync, hk, hf]
  constructor
  · rw [hfetches]
    cases hL : lookupAssoc e.cache.elements key with
    | none =>
      simp [Engine.revalidateFetches, Cache.hasKey, Cache.lookupItem, Cache.lookupStored, hL]
    | some s =>
      simp [Engine.revalidateFetches, Cache.hasKey, Cache.lookupItem, Cache.lookupStored, hL]
  · intro h1 h2 h3
    have hL : lookupAssoc e.cache.elements key = none := by
      cases hL : lookupAssoc e.cache.elements key with
      | none => rfl
      | some s =>
        rw [Cache.hasKey, Cache.lookupStored, hL] at h1
        simp at h1
    have hfetch1 : e.revalidateFetches key now cfg.force = true := by
      simp [Engine.revalidateFetches, Cache.hasKey, Cache.lookupStored, hL]
    have hrun1 : e.revalidateRun key now cfg =
        ({ e with
            cache := e.cache.set key ⟨CacheData.future e.nextFut,
              some (now + cfg.dedupingInterval)⟩
            nextFut := e.nextFut + 1 }, true) := by
      simp [Engine.revalidateRun, Engine.revalidateSync, hk, hfetch1, CacheItem.expiresIn]
    refine ⟨by rw [hrun1], ?_, ?_⟩
    · rw [hrun1]
      simp [Cache.lookupItem, Cache.lookupStored, Cache.set, lookupAssoc_setAssoc_self]
    · rw [hrun1]
      have hfetch2 :
          Engine.revalidateFetches
            { e with
                cache := e.cache.set key ⟨CacheData.future e.nextFut,
                  some (now + cfg.dedupingInterval)⟩
                nextFut := e.nextFut + 1 }
            key nowLater cfgLater.force = false := by
        simp [Engine.revalidateFetches, Cache.hasKey, Cache.lookupItem, Cache.lookupStored,
          Cache.set, lookupAssoc_setAssoc_self, CacheItem.hasExpired, h2]
        omega
      simp [Engine.revalidateRun, Engine.revalidateSync, hk, hfetch2]

/-- C1 witness: on a fresh engine, revalidating key `a` at instant 0 with
deduping interval 2000 issues a fetch, and revalidating again at instant 1
does not. -/
theorem swr_revalidate_dedup_witness :
    (((emptyEngine Int).revalidateRun "a" 0 ⟨false, 2000⟩).2 = true) ∧
    ((((emptyEngine Int).revalidateRun "a" 0 ⟨false, 2000⟩).1.revalidateRun "a" 1
        ⟨false, 2000⟩).2 = false) := by
  have h := (swr_revalidate_dedup (emptyEngine Int) "a" 0 1 ⟨false, 2000⟩ ⟨false, 2000⟩
      (by decide)).2 rfl rfl (by norm_num)
  exact ⟨h.1, h.2.2⟩

/-- C3: when the fetcher rejects during a `revalidate(key)` that issued a
fetch, the rejection reason is delivered to every error listener of the
key, the cache entry is removed, and `get(key)` afterwards returns
`undefined`. -/
theorem swr_revalidate_reject {V : Type} (e : Engine V) (key reason : String) (now : Nat)
    (cfg : RevCfg) (lid : Nat) (hk : key ≠ "")
    (hfetch : e.revalidateFetches key now cfg.force = true)
    (hsub : lid ∈ e.errors.emitList key) :
    ((lid, reason) ∈
      (e.revalidateSettleRun key now cfg (Except.error reason)).errorDeliveries) ∧
    ((e.revalidateSettleRun key now cfg (Except.error reason)).cache.hasKey key = false) ∧
    ((e.revalidateSettleRun key now cfg (Except.error reason)).swrGet key = none) := by
  refine ⟨?_, ?_, ?_⟩
  · simp [Engine.revalidateSettleRun, Engine.revalidateSettle, Engine.revalidateSync, hk,
      hfetch, Engine.emitError, List.mem_append, List.mem_map]
    exact Or.inr hsub
  · simp [Engine.revalidateSettleRun, Engine.revalidateSettle, Engine.revalidateSync, hk,
      hfetch, Engine.emitError, Cache.runResolve, Cache.remove, Cache.hasKey,
      Cache.lookupStored, Cache.set, lookupAssoc_removeAssoc_self]
  · simp [Engine.revalidateSettleRun, Engine.revalidateSettle, Engine.revalidateSync, hk,
      hfetch, Engine.emitError, Cache.runResolve, Cache.remove, Engine.swrGet, hk,
      Cache.lookupStored, Cache.set, lookupAssoc_removeAssoc_self]

/-- The engine used by the fetch-failure witness: empty cache, one error
listener (id 0) subscribed to key `a`. -/
def engineWithErrListener : Engine Int :=
  ⟨emptyCache Int, ⟨[("a", [0])]⟩, [], 0⟩

/-- C3 witness: with the fetcher rejecting with reason `boom` for key `a`,
the subscribed error listener receives `boom` and `get("a")` stays
absent. -/
theorem swr_revalidate_reject_witness :
    ((0, "boom") ∈ (engineWithErrListener.revalidateSettleRun "a" 0 ⟨false, 2000⟩
        (Except.error "boom")).errorDeliveries) ∧
    ((engineWithErrListener.revalidateSettleRun "a" 0 ⟨false, 2000⟩
        (Except.error "boom")).swrGet "a" = none) := by
  have h := swr_revalidate_reject engineWithErrListener "a" "boom" 0 ⟨false, 2000⟩ 0
      (by decide) rfl (by decide)
  exact ⟨h.1, h.2.2⟩

/-- C4: `mutate(key, v)` with the revalidate option off stores a settled,
non-resolving cache item holding `v` with no expiration, and an immediate
`get(key)` reads `v` back. -/
theorem swr_mutate_get_roundtrip {V : Type} (e : Engine V) (key : String) (v : V)
    (now : Nat) (cfg : RevCfg) (hk : key ≠ "") :
    ((e.mutateRun key (MutateValue.lit v) false now cfg).cache.lookupItem key =
      some ⟨CacheData.settled (some v), none⟩) ∧
    (CacheItem.isResolving (⟨CacheData.settled (some v), none⟩ : CacheItem V) = false) ∧
    ((e.mutateRun key (MutateValue.lit v) false now cfg).swrGet key = some v) := by
  refine ⟨?_, rfl, ?_⟩
  · simp [Engine.mutateRun, Engine.mutateSync, hk, Engine.mutateWrite, Engine.mutateData,
      Cache.lookupItem, Cache.lookupStored, Cache.set, lookupAssoc_setAssoc_self]
  · simp [Engine.mutateRun, Engine.mutateSync, hk, Engine.mutateWrite, Engine.mutateData,
      Engine.swrGet, Cache.lookupStored, Cache.set, lookupAssoc_setAssoc_self,
      CacheItem.isResolving]

/-- C4 witness: on a fresh engine, `mutate("a", 5)` (revalidate off) then
`get("a")` returns `5`. -/
theorem swr_mutate_get_roundtrip_witness :
    ((emptyEngine Int).mutateRun "a" (MutateValue.lit 5) false 0 ⟨false, 2000⟩).swrGet "a" =
      some 5 :=
  (swr_mutate_get_roundtrip (emptyEngine Int) "a" 5 0 ⟨false, 2000⟩ (by decide)).2.2

/-- C8: the function form of `mutate` is applied to the current cached
value (when the entry is present and settled) and its result is stored, so
mutating `key` to `v` and then mutating with a function `f` leaves
`f (some v)` in the cache; when the key is absent the function receives
the absent marker. -/
theorem swr_mutate_function_form {V : Type} (e : Engine V) (key : String) (v : V)
    (f : Option V → V) (now : Nat) (cfg : RevCfg) (hk : key ≠ "") :
    (((e.mutateRun key (MutateValue.lit v) false now cfg).mutateRun key
        (MutateValue.fn f) false now cfg).swrGet key = some (f (some v))) ∧
    (e.cache.hasKey key = false →
      (e.mutateRun key (MutateValue.fn f) false now cfg).swrGet key = some (f none)) := by
  constructor
  · simp [Engine.mutateRun, Engine.mutateSync, hk, Engine.mutateWrite, Engine.mutateData,
      Engine.swrGet, Cache.lookupStored, Cache.set, lookupAssoc_setAssoc_self,
      CacheItem.isResolving]
  · intro h1
    have hL : lookupAssoc e.cache.elements key = none := by
      cases hL : lookupAssoc e.cache.elements key with
      | none => rfl
      | some s =>
        rw [Cache.hasKey, Cache.lookupStored, hL] at h1
        simp at h1
    simp [Engine.mutateRun, Engine.mutateSync, hk, Engine.mutateWrite, Engine.mutateData,
      Engine.swrGet, Cache.lookupStored, Cache.set, lookupAssoc_setAssoc_self,
      CacheItem.isResolving, hL]

/-- C8 witness: `mutate("a", 1)` then `mutate("a", prev ↦ prev + 1)` (both
with revalidate off) leaves `2` in the cache, read back by `get("a")`. -/
theorem swr_mutate_function_form_witness :
    (((emptyEngine Int).mutateRun "a" (MutateValue.lit 1) false 0 ⟨false, 2000⟩).mutateRun "a"
        (MutateValue.fn (fun p => p.getD 0 + 1)) false 0 ⟨false, 2000⟩).swrGet "a" =
      some 2 := by
  have h := (swr_mutate_function_form (emptyEngine Int) "a" 1 (fun p => p.getD 0 + 1) 0
      ⟨false, 2000⟩ (by decide)).1
  rw [h]
  norm_num

/-- C5 counterexample: on an empty cache, `getWait("a")` registers both
listeners; when a data broadcast of `42` then settles the promise, the
error listener is still subscribed — refuting the claim that both
listeners are torn down once either outcome fires. -/
theorem getwait_teardown_cex :
    ((getWaitOnData ((emptyEngine Int).getWaitInit "a") (some 42)).result =
      some (Except.ok 42)) ∧
    ((getWaitOnData ((emptyEngine Int).getWaitInit "a") (some 42)).errorActive = true) := by
  constructor <;> rfl

/-- C5 amended: the `getWait` promise settles at most once (a settled
outcome is permanent), but teardown is one-sided: settling via a data
broadcast removes only the data listener (the error listener stays
subscribed), settling via an error broadcast removes only the error
listener, and resolving immediately from a present settled value removes
neither listener. -/
theorem getwait_listener_semantics {V : Type} (e : Engine V) (key : String)
    (s : GetWaitState V) (v : V) (r : Except String V) (err : String)
    (payload : Option V) (perr : Option String) :
    (s.result = some r →
      ((getWaitOnData s payload).result = some r ∧
       (getWaitOnError s perr).result = some r)) ∧
    (s.dataActive = true → s.result = none →
      ((getWaitOnData s (some v)).result = some (Except.ok v) ∧
       (getWaitOnData s (some v)).dataActive = false ∧
       (getWaitOnData s (some v)).errorActive = s.errorActive)) ∧
    (s.errorActive = true → s.result = none →
      ((getWaitOnError s (some err)).result = some (Except.error err) ∧
       (getWaitOnError s (some err)).errorActive = false ∧
       (getWaitOnError s (some err)).dataActive = s.dataActive)) ∧
    (key ≠ "" → e.swrGet key = some v →
      ((e.getWaitInit key).result = some (Except.ok v) ∧
       (e.getWaitInit key).dataActive = true ∧
       (e.getWaitInit key).errorActive = true)) := by
  refine ⟨?_, ?_, ?_, ?_⟩
  · intro hres
    constructor
    · cases hda : s.dataActive <;> cases payload <;> simp [getWaitOnData, hda, hres]
    · cases hea : s.errorActive <;> cases perr <;> simp [getWaitOnError, hea, hres]
  · intro hda hres
    simp [getWaitOnData, hda, hres]
  · intro hea hres
    simp [getWaitOnError, hea, hres]
  · intro hk hget
    simp [Engine.getWaitInit, hget, hk]

/-- The engine used by the `getWait` witness: key `a` holds the settled
value `1`. -/
def engineWithA : Engine Int :=
  ⟨⟨[("a", ⟨0, ⟨CacheData.settled (some 1), none⟩⟩)], 1, ⟨[]⟩, [], []⟩, ⟨[]⟩, [], 0⟩

/-- C5 amended witness: concrete runs of the settled-outcome, data-event,
error-event and immediate-resolution cases. -/
theorem getwait_listener_semantics_witness :
    ((getWaitOnData (⟨true, true, some (Except.ok 1)⟩ : GetWaitState Int) none).result =
      some (Except.ok 1)) ∧
    ((getWaitOnData (⟨true, true, none⟩ : GetWaitState Int) (some 42)).result =
      some (Except.ok 42)) ∧
    ((getWaitOnData (⟨true, true, none⟩ : GetWaitState Int) (some 42)).errorActive = true) ∧
    ((getWaitOnError (⟨true, true, none⟩ : GetWaitState Int) (some "boom")).result =
      some (Except.error "boom")) ∧
    ((engineWithA.getWaitInit "a").result = some (Except.ok 1)) ∧
    ((engineWithA.getWaitInit "a").dataActive = true) ∧
    ((engineWithA.getWaitInit "a").errorActive = true) := by
  have h1 := getwait_listener_semantics (emptyEngine Int) "a"
      (⟨true, true, some (Except.ok 1)⟩ : GetWaitState Int) 42 (Except.ok 1) "boom"
      none none
  have h2 := getwait_listener_semantics (emptyEngine Int) "a"
      (⟨true, true, none⟩ : GetWaitState Int) 42 (Except.ok 1) "boom" (some 42)
      (some "boom")
  have h3 := getwait_listener_semantics engineWithA "a"
      (⟨true, true, none⟩ : GetWaitState Int) 1 (Except.ok 1) "boom" none none
  have hb := h2.2.1 rfl rfl
  have hc := (h2.2.2.1 rfl rfl).1
  have hd := h3.2.2.2 (by decide) rfl
  exact ⟨(h1.1 rfl).1, hb.1, hb.2.2, hc, hd.1, hd.2.1, hd.2.2⟩

/-- C9 counterexample: a `subscribe` call with the default options
(`loadInitialCache` and `revalidateOnStart` set) and both callbacks
evaluates the key producer four times — once for the initial cache read,
once for the revalidation, and once per listener registration — refuting
the claim that it is evaluated exactly once per call. -/
theorem subscribe_key_evals_cex :
    ((subscribeModel (emptyEngine Int) (fun v => v != 0) none (some "a") true true true
        true).keyEvals = 4) ∧
    ((subscribeModel (emptyEngine Int) (fun v => v != 0) none (some "a") true true true
        true).keyEvals ≠ 1) := by
  constructor <;> decide

/-- C9 amended: the key producer is evaluated once per `resolveKey` call
site reached in `subscribe` — the initial cache read when
`loadInitialCache` is on, the start-of-call revalidation when
`revalidateOnStart` is on, and each supplied listener registration — not
once per call. -/
theorem subscribe_key_evals_per_site {V : Type} (e : Engine V) (truthy : V → Bool)
    (fallbackData : Option V) (keyFn : Option String)
    (hasOnData hasOnError lic ros : Bool) :
    (subscribeModel e truthy fallbackData keyFn hasOnData hasOnError lic ros).keyEvals =
      (if lic then 1 else 0) + (if ros then 1 else 0) +
      (if hasOnData then 1 else 0) + (if hasOnError then 1 else 0) := rfl

/-- C10: when the cache holds a settled falsy value (`0`, the empty string
or `false`) for the key, `subscribe` with `loadInitialCache` obtains the
cached value but — deciding by JS truthiness, not presence — does not call
`onData` synchronously, its `dataPromise` falls back to the revalidation
promise, and the older `getWait` variant does not short-circuit-resolve
with the falsy current value. -/
theorem subscribe_falsy_cached (e : Engine JSVal) (key : String) (v : JSVal)
    (s : StoredItem JSVal) (fallbackData : Option JSVal)
    (hasOnData hasOnError ros : Bool) (hk : key ≠ "")
    (hstore : lookupAssoc e.cache.elements key = some s)
    (hdata : s.item.data = CacheData.settled (some v))
    (hfalsy : jsTruthy v = false) :
    ((subscribeModel e jsTruthy fallbackData (some key) hasOnData hasOnError true
        ros).cachedData = some v) ∧
    ((subscribeModel e jsTruthy fallbackData (some key) hasOnData hasOnError true
        ros).syncData = []) ∧
    ((subscribeModel e jsTruthy fallbackData (some key) hasOnData hasOnError true
        ros).dataPromiseFromCache = false) ∧
    ((e.getWaitV2Init jsTruthy key).result = none) := by
  have hget : e.swrGet key = some v := by
    simp [Engine.swrGet, hk, Cache.lookupStored, hstore, CacheItem.isResolving, hdata]
  refine ⟨?_, ?_, ?_, ?_⟩ <;>
    simp [subscribeModel, Engine.swrGetOpt, hget, hfalsy, Engine.getWaitV2Init]

/-- The engine used by the falsy-value witness: key `a` holds the settled
JS number `0`. -/
def engineFalsyA : Engine JSVal :=
  ⟨⟨[("a", ⟨0, ⟨CacheData.settled (some (JSVal.num 0)), none⟩⟩)], 1, ⟨[]⟩, [], []⟩,
    ⟨[]⟩, [], 0⟩

/-- C10 witness: with `0` cached for key `a`, `subscribe` passes nothing to
`onData` synchronously, `dataPromise` is the revalidation promise, and the
older `getWait` does not resolve immediately. -/
theorem subscribe_falsy_cached_witness :
    ((subscribeModel engineFalsyA jsTruthy none (some "a") true true true
        true).syncData = []) ∧
    ((subscribeModel engineFalsyA jsTruthy none (some "a") true true true
        true).dataPromiseFromCache = false) ∧
    ((engineFalsyA.getWaitV2Init jsTruthy "a").result = none) := by
  have h := subscribe_falsy_cached engineFalsyA "a" (JSVal.num 0)
      ⟨0, ⟨CacheData.settled (some (JSVal.num 0)), none⟩⟩ none true true true
      (by decide) rfl rfl (by decide)
  exact ⟨h.2.1, h.2.2.1, h.2.2.2⟩

end Swrev
